import Mathlib

/-!
Verification of the InvoicyPro-Dynamics invoicing server (`server.js`).

Monetary amounts and tax rates are modelled as rationals (`ℚ`), dates and
timestamps as integers (`ℤ`, in days), and the in-memory store `db` as a
structure of lists.  JavaScript's `x.toFixed(2)` rounding is modelled as
half-up rounding to two decimals (`round2`), and JavaScript's truthiness
semantics of `a || b || 0` on optional numbers is modelled by `jsOr`
(a present-but-zero value is falsy and falls through).
-/

namespace InvoicyPro

/-- Rounding to two decimal places, applied half-up, as `parseFloat(x.toFixed(2))`. -/
def round2 (q : ℚ) : ℚ := ((round (q * 100) : ℤ) : ℚ) / 100

/-- Invoice status enumeration from the validation rule
`isIn(['draft', 'pending', 'paid', 'partially_paid', 'overdue', 'cancelled'])`. -/
inductive Status where
  | draft
  | pending
  | paid
  | partiallyPaid
  | overdue
  | cancelled
deriving DecidableEq

/-- One line item of an invoice: `{description, quantity, unit_price, tax_rate}`;
`tax_rate` is optional. -/
structure LineItem where
  description : String
  quantity : ℚ
  unit_price : ℚ
  tax_rate : Option ℚ
deriving DecidableEq

/-- A client record (the fields the invoice and report logic reads). -/
structure Client where
  id : String
  userId : String
  name : String
  email : String
deriving DecidableEq

/-- An invoice record as stored in `db.invoices` (recurrence fields, which no
computation reads, are omitted). -/
structure Invoice where
  id : String
  userId : String
  clientId : String
  client_name : String
  invoice_number : String
  invoice_date : Int
  due_date : Option Int
  items : List LineItem
  total_amount : ℚ
  status : Status
  notes : Option String
  currency : Option String
  global_tax_rate : Option ℚ
  createdAt : Int
  updatedAt : Int
deriving DecidableEq

/-- A payment record as stored in `db.payments`. -/
structure Payment where
  id : String
  invoiceId : String
  userId : String
  amount : ℚ
  payment_date : Int
  payment_method : String
  notes : Option String
  createdAt : Int
deriving DecidableEq

/-- A user record (the fields relevant to the modelled operations). -/
structure User where
  id : String
  name : String
  email : String
  roles : List String
deriving DecidableEq

/-- Per-user settings record. -/
structure Settings where
  companyName : String
  defaultCurrency : String
  defaultTaxRate : ℚ
deriving DecidableEq

/-- The in-memory "database" `db` of `server.js`. -/
structure DB where
  users : List User
  settings : List (String × Settings)
  clients : List Client
  invoices : List Invoice
  payments : List Payment
deriving DecidableEq

/-! ### Decimal rendering and the invoice number generator -/

/-- Decimal digits of `n`, least significant first (`[]` for `0`); the first
argument is structural fuel, `n ≤ fuel` is maintained by `decDigits`. -/
def decDigitsAux : Nat → Nat → List Nat
  | 0, _ => []
  | _ + 1, 0 => []
  | fuel + 1, n + 1 => ((n + 1) % 10) :: decDigitsAux fuel ((n + 1) / 10)

/-- Decimal digits of `n`, least significant first. -/
def decDigits (n : Nat) : List Nat := decDigitsAux n n

/-- The decimal string of a natural number, modelling JavaScript `String(n)`. -/
def natToDecimal (n : Nat) : String :=
  if n = 0 then "0" else String.mk ((decDigits n).reverse.map Nat.digitChar)

/-- JavaScript `s.padStart(5, '0')`. -/
def padStart5 (s : String) : String :=
  if 5 ≤ s.length then s else String.mk (List.replicate (5 - s.length) '0' ++ s.data)

/-- `generateInvoiceNumber` from `server.js`:
`` `INV-${year}-${String(db.invoices.length + 1).padStart(5, '0')}` ``,
parameterised by the current year and by `db.invoices.length`. -/
def generateInvoiceNumber (year : Nat) (count : Nat) : String :=
  "INV-" ++ natToDecimal year ++ "-" ++ padStart5 (natToDecimal (count + 1))

/-! ### The line-item total calculator -/

/-- JavaScript `x || y` on an optional number `x`: an absent or zero (falsy)
`x` falls through to `y`. -/
def jsOr (x : Option ℚ) (y : ℚ) : ℚ :=
  match x with
  | some v => if v = 0 then y else v
  | none => y

/-- The tax rate the code uses for one item:
`Number(item.tax_rate || invoiceData.global_tax_rate || 0)`. -/
def effectiveTaxRate (itemRate globalRate : Option ℚ) : ℚ :=
  jsOr itemRate (jsOr globalRate 0)

/-- One item's contribution to the total:
`itemSubtotal + itemSubtotal * (rate / 100)` with
`itemSubtotal = quantity * unit_price`. -/
def itemContribution (globalRate : Option ℚ) (it : LineItem) : ℚ :=
  let itemSubtotal := it.quantity * it.unit_price
  itemSubtotal + itemSubtotal * (effectiveTaxRate it.tax_rate globalRate / 100)

/-- The stored invoice total: the accumulated item contributions, rounded once
at the end (`parseFloat(totalAmount.toFixed(2))`). -/
def computeTotal (items : List LineItem) (globalRate : Option ℚ) : ℚ :=
  round2 ((items.map (itemContribution globalRate)).sum)

/-- The effective tax rate exactly as claim C1 words it: the item's rate if
present, else the invoice's global rate if present, else 0. -/
def claimEffectiveTaxRate (itemRate globalRate : Option ℚ) : ℚ :=
  itemRate.getD (globalRate.getD 0)

/-- The invoice total exactly as claim C1 words it:
`round(sum of quantity * unit_price * (1 + rate / 100), 2)` with
`claimEffectiveTaxRate`, rounded once at the end. -/
def claimTotal (items : List LineItem) (globalRate : Option ℚ) : ℚ :=
  round2 ((items.map (fun it =>
    it.quantity * it.unit_price *
      (1 + claimEffectiveTaxRate it.tax_rate globalRate / 100))).sum)

/-- The effective tax rate of the amended claim C1: the item's rate if present
and nonzero, else the global rate if present and nonzero, else 0 (a zero rate
is treated as absent, reflecting JavaScript truthiness). -/
def amendedEffectiveTaxRate (itemRate globalRate : Option ℚ) : ℚ :=
  match itemRate with
  | some r =>
      if r ≠ 0 then r else
        match globalRate with
        | some g => if g ≠ 0 then g else 0
        | none => 0
  | none =>
      match globalRate with
      | some g => if g ≠ 0 then g else 0
      | none => 0

/-- The invoice total of the amended claim C1. -/
def amendedTotal (items : List LineItem) (globalRate : Option ℚ) : ℚ :=
  round2 ((items.map (fun it =>
    it.quantity * it.unit_price *
      (1 + amendedEffectiveTaxRate it.tax_rate globalRate / 100))).sum)

/-! ### Request validation -/

/-- `isFloat({ min: 0, max: 100 })` on an optional tax rate. -/
def validTaxRate : Option ℚ → Bool
  | none => true
  | some r => decide (0 ≤ r ∧ r ≤ 100)

/-- `invoiceItemValidation`: description nonempty, quantity positive,
unit price nonnegative, optional tax rate within `[0, 100]`. -/
def validLineItem (it : LineItem) : Bool :=
  decide (it.description ≠ "") && decide (0 < it.quantity) &&
    decide (0 ≤ it.unit_price) && validTaxRate it.tax_rate

/-- The body of an invoice create/update request (the fields the modelled
computation reads); optional fields are `none` when absent from the body. -/
structure InvoiceReq where
  client_id : String
  invoice_date : Int
  due_date : Option Int
  status : Status
  notes : Option String
  currency : Option String
  global_tax_rate : Option ℚ
  items : List LineItem
deriving DecidableEq

/-- `invoiceValidationRules`: at least one item, optional global tax rate in
`[0, 100]`, every item valid. -/
def validInvoiceReq (req : InvoiceReq) : Bool :=
  decide (req.items ≠ []) && validTaxRate req.global_tax_rate &&
    req.items.all validLineItem

/-- The body of a payment request. -/
structure PaymentReq where
  amount : ℚ
  payment_date : Int
  payment_method : String
  notes : Option String
deriving DecidableEq

/-- `paymentValidationRules`: `amount` must be positive
(`isFloat({ gt: 0 })`), the method nonempty. -/
def validPaymentReq (req : PaymentReq) : Bool :=
  decide (0 < req.amount) && decide (req.payment_method ≠ "")

/-! ### Store operations -/

/-- Replace the first element satisfying `p` by its image under `f`
(JavaScript `findIndex` followed by an in-place assignment, or an in-place
mutation of the object returned by `find`). -/
def replaceFirst (p : α → Bool) (f : α → α) : List α → List α
  | [] => []
  | x :: xs => if p x then f x :: xs else x :: replaceFirst p f xs

/-- `db.clients.find(c => c.id === cid && c.userId === uid)`. -/
def findClient (db : DB) (uid cid : String) : Option Client :=
  db.clients.find? (fun c => decide (c.id = cid ∧ c.userId = uid))

/-- `db.invoices.find(inv => inv.id === invId && inv.userId === uid)`. -/
def findInvoice (db : DB) (uid invId : String) : Option Invoice :=
  db.invoices.find? (fun inv => decide (inv.id = invId ∧ inv.userId = uid))

/-- `db.payments.filter(p => p.invoiceId === invId)`. -/
def paymentsFor (db : DB) (invId : String) : List Payment :=
  db.payments.filter (fun p => decide (p.invoiceId = invId))

/-- `paymentsFor(..).reduce((sum, p) => sum + p.amount, 0)`. -/
def totalPaidFor (db : DB) (invId : String) : ℚ :=
  ((paymentsFor db invId).map Payment.amount).sum

/-- `POST /api/invoices`: validate, look up the client, compute the total,
generate the invoice number from `db.invoices.length + 1`, and push the new
invoice.  `none` models a 400/404 response. -/
def createInvoice (db : DB) (uid : String) (req : InvoiceReq) (newId : String)
    (year : Nat) (now : Int) : Option (Invoice × DB) :=
  if validInvoiceReq req then
    match findClient db uid req.client_id with
    | none => none
    | some client =>
        let newInvoice : Invoice :=
          { id := newId
            userId := uid
            clientId := req.client_id
            client_name := client.name
            invoice_number := generateInvoiceNumber year db.invoices.length
            invoice_date := req.invoice_date
            due_date := req.due_date
            items := req.items
            total_amount := computeTotal req.items req.global_tax_rate
            status := req.status
            notes := req.notes
            currency := req.currency
            global_tax_rate := req.global_tax_rate
            createdAt := now
            updatedAt := now }
        some (newInvoice, { db with invoices := db.invoices ++ [newInvoice] })
  else none

/-- `PUT /api/invoices/:id`: validate, find the invoice and the client,
recompute the total from the request body, and overwrite the stored invoice
(spread semantics: body fields absent from the request keep their old
values; `id`, `userId`, `invoice_number` and `createdAt` are preserved). -/
def updateInvoice (db : DB) (uid invId : String) (req : InvoiceReq)
    (now : Int) : Option (Invoice × DB) :=
  if validInvoiceReq req then
    match findInvoice db uid invId with
    | none => none
    | some old =>
        match findClient db uid req.client_id with
        | none => none
        | some client =>
            let updated : Invoice :=
              { old with
                clientId := req.client_id
                client_name := client.name
                invoice_date := req.invoice_date
                due_date := req.due_date.orElse (fun _ => old.due_date)
                items := req.items
                total_amount := computeTotal req.items req.global_tax_rate
                status := req.status
                notes := req.notes.orElse (fun _ => old.notes)
                currency := req.currency.orElse (fun _ => old.currency)
                global_tax_rate :=
                  req.global_tax_rate.orElse (fun _ => old.global_tax_rate)
                updatedAt := now }
            some (updated,
              { db with
                invoices := replaceFirst
                  (fun inv => decide (inv.id = invId ∧ inv.userId = uid))
                  (fun _ => updated) db.invoices })
  else none

/-- `DELETE /api/invoices/:id`: drop the owned invoice; if one was removed,
also drop every payment whose `invoiceId` references it. -/
def deleteInvoice (db : DB) (uid invId : String) : Option DB :=
  let invoices' := db.invoices.filter
    (fun inv => decide (¬(inv.id = invId ∧ inv.userId = uid)))
  if invoices'.length = db.invoices.length then none
  else some { db with
    invoices := invoices'
    payments := db.payments.filter (fun p => decide (p.invoiceId ≠ invId)) }

/-- `POST /api/invoices/:id/payments`: validate, find the owned invoice,
append the payment, recompute the total paid, and override the invoice's
status (`paid` when total paid reaches the total amount, else
`partially_paid` when positive, else unchanged); the updated timestamp is
always refreshed. -/
def recordPayment (db : DB) (uid invId : String) (req : PaymentReq)
    (newId : String) (now : Int) : Option (Payment × DB) :=
  if validPaymentReq req then
    match findInvoice db uid invId with
    | none => none
    | some invoice =>
        let newPayment : Payment :=
          { id := newId
            invoiceId := invId
            userId := uid
            amount := req.amount
            payment_date := req.payment_date
            payment_method := req.payment_method
            notes := req.notes
            createdAt := now }
        let db1 : DB := { db with payments := db.payments ++ [newPayment] }
        let totalPaid := totalPaidFor db1 invId
        let newStatus :=
          if invoice.total_amount ≤ totalPaid then Status.paid
          else if 0 < totalPaid then Status.partiallyPaid
          else invoice.status
        some (newPayment,
          { db1 with
            invoices := replaceFirst
              (fun inv => decide (inv.id = invId ∧ inv.userId = uid))
              (fun inv => { inv with status := newStatus, updatedAt := now })
              db1.invoices })
  else none

/-- `GET /api/invoices/:id/payments`: 404 (`none`) when the owned invoice is
absent, else the invoice's payments recorded by the acting user. -/
def getInvoicePayments (db : DB) (uid invId : String) : Option (List Payment) :=
  match findInvoice db uid invId with
  | none => none
  | some _ =>
      some (db.payments.filter
        (fun p => decide (p.invoiceId = invId ∧ p.userId = uid)))

/-! ### Reporting -/

/-- `db.invoices.filter(inv => inv.userId === uid)`. -/
def userInvoices (db : DB) (uid : String) : List Invoice :=
  db.invoices.filter (fun inv => decide (inv.userId = uid))

/-- `balanceDue = inv.total_amount - totalPaidForInvoice`. -/
def balanceDue (db : DB) (inv : Invoice) : ℚ :=
  inv.total_amount - totalPaidFor db inv.id

/-- `inv.status === 'pending' || inv.status === 'partially_paid' || inv.status === 'overdue'`. -/
def outstandingStatus (s : Status) : Bool :=
  decide (s = Status.pending ∨ s = Status.partiallyPaid ∨ s = Status.overdue)

/-- `inv.due_date && new Date(inv.due_date) < now` (an absent due date is falsy). -/
def dueBefore (dueDate : Option Int) (now : Int) : Bool :=
  match dueDate with
  | some d => decide (d < now)
  | none => false

/-- One invoice's contribution to `totalOutstanding`. -/
def outstandingContribution (db : DB) (inv : Invoice) : ℚ :=
  if 0 < balanceDue db inv ∧ outstandingStatus inv.status = true then
    balanceDue db inv
  else 0

/-- One invoice's contribution to `totalOverdue` (checked only inside the
outstanding branch, exactly as in the code). -/
def overdueContribution (db : DB) (now : Int) (inv : Invoice) : ℚ :=
  if 0 < balanceDue db inv ∧ outstandingStatus inv.status = true then
    if dueBefore inv.due_date now = true ∧ inv.status ≠ Status.paid ∧
        inv.status ≠ Status.cancelled then
      balanceDue db inv
    else 0
  else 0

/-- One invoice's contribution to `paidLast30Days`: every payment of the
invoice whose date satisfies `payment_date >= now - 30` (the code imposes no
upper bound). -/
def paid30Contribution (db : DB) (now : Int) (inv : Invoice) : ℚ :=
  ((paymentsFor db inv.id).map
    (fun p => if now - 30 ≤ p.payment_date then p.amount else 0)).sum

/-- The three figures of `GET /api/reports/summary`, each rounded once. -/
structure Summary where
  total_outstanding : ℚ
  total_overdue : ℚ
  paid_last_30_days : ℚ
deriving DecidableEq

/-- `GET /api/reports/summary` for the acting user at time `now`. -/
def summaryReport (db : DB) (uid : String) (now : Int) : Summary :=
  { total_outstanding :=
      round2 (((userInvoices db uid).map (outstandingContribution db)).sum)
    total_overdue :=
      round2 (((userInvoices db uid).map (overdueContribution db now)).sum)
    paid_last_30_days :=
      round2 (((userInvoices db uid).map (paid30Contribution db now)).sum) }

/-- `paid_last_30_days` exactly as claim C6 words it: payment dates restricted
to the window `[now - 30, now]`, with the current time as upper bound. -/
def claimPaid30 (db : DB) (uid : String) (now : Int) : ℚ :=
  round2 (((userInvoices db uid).map (fun inv =>
    (((paymentsFor db inv.id).filter
        (fun p => decide (now - 30 ≤ p.payment_date ∧ p.payment_date ≤ now))).map
      Payment.amount).sum)).sum)

/-- `paid_last_30_days` as the amended claim C6 words it: payment dates
restricted only by the inclusive lower bound `now - 30`, with no upper
bound. -/
def amendedPaid30 (db : DB) (uid : String) (now : Int) : ℚ :=
  round2 (((userInvoices db uid).map (fun inv =>
    (((paymentsFor db inv.id).filter
        (fun p => decide (now - 30 ≤ p.payment_date))).map
      Payment.amount).sum)).sum)

/-- One row of `GET /api/reports/revenue-by-client`. -/
structure RevenueEntry where
  client_id : String
  client_name : String
  invoice_count : Nat
  total_revenue : ℚ
deriving DecidableEq

/-- `db.invoices.filter(inv => inv.clientId === client.id && inv.userId === targetUserId
&& (inv.status === 'paid' || inv.status === 'partially_paid'))`. -/
def clientRevenueInvoices (db : DB) (targetUid cid : String) : List Invoice :=
  db.invoices.filter (fun inv =>
    decide (inv.clientId = cid ∧ inv.userId = targetUid ∧
      (inv.status = Status.paid ∨ inv.status = Status.partiallyPaid)))

/-- The revenue row of one client: payment sums over that client's paid or
partially paid invoices, rounded once. -/
def clientRevenueEntry (db : DB) (targetUid : String) (c : Client) : RevenueEntry :=
  let invs := clientRevenueInvoices db targetUid c.id
  { client_id := c.id
    client_name := c.name
    invoice_count := invs.length
    total_revenue := round2 ((invs.map (fun inv => totalPaidFor db inv.id)).sum) }

/-- `GET /api/reports/revenue-by-client` for the target user: the per-client
rows with positive revenue, sorted descending by revenue (JavaScript's
`sort((a, b) => b.total_revenue - a.total_revenue)`, a stable sort). -/
def revenueByClient (db : DB) (targetUid : String) : List RevenueEntry :=
  (((db.clients.filter (fun c => decide (c.userId = targetUid))).map
      (clientRevenueEntry db targetUid)).filter
    (fun e => decide (0 < e.total_revenue))).mergeSort
    (fun a b => decide (b.total_revenue ≤ a.total_revenue))

/-- The target of the revenue report:
`req.user.roles.includes('admin') && req.query.userId ? req.query.userId : req.user.id`
(an empty query string is falsy). -/
def targetUser (callerId : String) (roles : List String)
    (queryUserId : Option String) : String :=
  if "admin" ∈ roles then
    match queryUserId with
    | some q => if q = "" then callerId else q
    | none => callerId
  else callerId

/-! ### Concrete fixtures for witnesses and counterexamples -/

/-- A client of user `u1`, used by the concrete scenarios. -/
def fixClient : Client := { id := "c1", userId := "u1", name := "Acme", email := "a@x.io" }

/-- An invoice of user `u1` with total 100, used by the payment scenarios. -/
def fixInvoice : Invoice :=
  { id := "i1", userId := "u1", clientId := "c1", client_name := "Acme"
    invoice_number := "INV-2025-00001", invoice_date := 10, due_date := some 40
    items := [{ description := "widget", quantity := 1, unit_price := 100, tax_rate := none }]
    total_amount := 100, status := Status.pending, notes := none
    currency := none, global_tax_rate := none, createdAt := 10, updatedAt := 10 }

/-- A store holding `fixClient` and `fixInvoice` and no payments. -/
def fixDb : DB :=
  { users := [{ id := "u1", name := "Ada", email := "ada@x.io", roles := ["user"] }]
    settings := [], clients := [fixClient], invoices := [fixInvoice], payments := [] }

/-- A payment request of 40 against `fixInvoice`. -/
def fixPayReq : PaymentReq :=
  { amount := 40, payment_date := 20, payment_method := "cash", notes := none }

/-- The invoice-request fixture of the C1 counterexample: one item whose
`tax_rate` is present but equal to `0`, with a global tax rate of 10. -/
def c1req : InvoiceReq :=
  { client_id := "c1", invoice_date := 10, due_date := none
    status := Status.pending, notes := none, currency := none
    global_tax_rate := some 10
    items := [{ description := "widget", quantity := 1, unit_price := 100, tax_rate := some 0 }] }

/-- A store holding only `fixClient`, with no invoices or payments. -/
def emptyInvDb : DB :=
  { users := [], settings := [], clients := [fixClient], invoices := [], payments := [] }

/-- A plain invoice request against `fixClient` (no tax rates). -/
def plainReq : InvoiceReq :=
  { client_id := "c1", invoice_date := 10, due_date := none
    status := Status.pending, notes := none, currency := none
    global_tax_rate := none
    items := [{ description := "thing", quantity := 2, unit_price := 30, tax_rate := none }] }

/-- C4 trace, step 1: create invoice `a` in the empty store. -/
def c4db1 : DB := ((createInvoice emptyInvDb "u1" plainReq "a" 2025 0).map Prod.snd).getD emptyInvDb

/-- C4 trace, step 2: create invoice `b`. -/
def c4db2 : DB := ((createInvoice c4db1 "u1" plainReq "b" 2025 1).map Prod.snd).getD c4db1

/-- C4 trace, step 3: delete invoice `a` (its payments cascade). -/
def c4db3 : DB := (deleteInvoice c4db2 "u1" "a").getD c4db2

/-- C4 trace, step 4: create invoice `c`; its number collides with `b`'s. -/
def c4db4 : DB := ((createInvoice c4db3 "u1" plainReq "c" 2025 2).map Prod.snd).getD c4db3

/-- The store of the C6 counterexample: one pending invoice of `u1` with a
single payment dated 5 days in the future of `now = 100`. -/
def c6db : DB :=
  { users := [], settings := [], clients := [fixClient]
    invoices := [fixInvoice]
    payments := [{ id := "p1", invoiceId := "i1", userId := "u1", amount := 50
                   payment_date := 105, payment_method := "card", notes := none
                   createdAt := 105 }] }

/-- The invoice created by the C1 witness scenario. -/
def c1winv : Invoice :=
  { id := "x", userId := "u1", clientId := "c1", client_name := "Acme"
    invoice_number := generateInvoiceNumber 2025 0, invoice_date := 10
    due_date := none, items := c1req.items
    total_amount := computeTotal c1req.items c1req.global_tax_rate
    status := Status.pending, notes := none, currency := none
    global_tax_rate := some 10, createdAt := 0, updatedAt := 0 }

/-- The store after the C1 witness creation. -/
def c1wdb : DB := { emptyInvDb with invoices := emptyInvDb.invoices ++ [c1winv] }

/-- The payment appended by the payment-route witness scenarios. -/
def wPay : Payment :=
  { id := "p9", invoiceId := "i1", userId := "u1", amount := 40
    payment_date := 20, payment_method := "cash", notes := none, createdAt := 50 }

/-- The store after recording `fixPayReq` against `fixInvoice` in `fixDb`. -/
def wDb2 : DB :=
  ((recordPayment fixDb "u1" "i1" fixPayReq "p9" 50).map Prod.snd).getD fixDb

/-- The invoice created by the C4 witness scenario. -/
def c4winv : Invoice :=
  ((createInvoice emptyInvDb "u1" plainReq "a" 2025 0).map Prod.fst).getD fixInvoice

/-- The value a decimal digit string denotes (most significant digit first),
used to invert the decimal rendering: leading `'0'` characters do not change
the value. -/
def decValue (l : List Char) : Nat :=
  l.foldl (fun acc c => acc * 10 + (c.toNat - 48)) 0

/-- The frame relation of claim C10 between an invoice before and after a
payment is recorded against invoice `invId` of user `uid`: every field except
`status` and `updatedAt` is unchanged, and an invoice that is not the target
is entirely unchanged. -/
def invoiceFrame (uid invId : String) (old new : Invoice) : Prop :=
  new.id = old.id ∧ new.userId = old.userId ∧ new.clientId = old.clientId ∧
  new.client_name = old.client_name ∧ new.invoice_number = old.invoice_number ∧
  new.invoice_date = old.invoice_date ∧ new.due_date = old.due_date ∧
  new.items = old.items ∧ new.total_amount = old.total_amount ∧
  new.notes = old.notes ∧ new.currency = old.currency ∧
  new.global_tax_rate = old.global_tax_rate ∧ new.createdAt = old.createdAt ∧
  (¬(old.id = invId ∧ old.userId = uid) → new = old)

/-- The payment record built from a payment request. -/
def paymentOf (req : PaymentReq) (uid invId pid : String) (now : Int) : Payment :=
  { id := pid, invoiceId := invId, userId := uid, amount := req.amount
    payment_date := req.payment_date, payment_method := req.payment_method
    notes := req.notes, createdAt := now }

/-- The status the payment recorder derives, stated as claim C2 words it:
`paid` when the sum of all payments for the invoice (including the new one)
reaches the total, else `partially_paid` when that sum is positive, else the
prior status. -/
def derivedStatus (db : DB) (invId : String) (req : PaymentReq)
    (inv : Invoice) : Status :=
  if inv.total_amount ≤ totalPaidFor db invId + req.amount then Status.paid
  else if 0 < totalPaidFor db invId + req.amount then Status.partiallyPaid
  else inv.status

/-- The store after a successful payment recording, explicitly. -/
def dbAfterPayment (db : DB) (uid invId : String) (req : PaymentReq)
    (pid : String) (now : Int) (inv : Invoice) : DB :=
  { db with
    payments := db.payments ++ [paymentOf req uid invId pid now]
    invoices := replaceFirst (fun i => decide (i.id = invId ∧ i.userId = uid))
      (fun i => { i with status := derivedStatus db invId req inv
                         updatedAt := now }) db.invoices }

/-! ## Theorems -/

/-- `round2` is monotone. -/
theorem round2_mono {x y : ℚ} (h : x ≤ y) : round2 x ≤ round2 y := by
  unfold round2
  rw [div_le_div_iff_of_pos_right (by norm_num : (0:ℚ) < 100)]
  rw [round_eq, round_eq]
  exact_mod_cast Int.floor_le_floor (by linarith)

/-- The code's effective tax rate coincides with the amended claim C1's
effective tax rate. -/
theorem effectiveTaxRate_eq_amended (ir g : Option ℚ) :
    effectiveTaxRate ir g = amendedEffectiveTaxRate ir g := by
  unfold effectiveTaxRate amendedEffectiveTaxRate jsOr
  cases ir with
  | none =>
      cases g with
      | none => rfl
      | some gg => by_cases hg : gg = 0 <;> simp [hg]
  | some r =>
      by_cases hr : r = 0 <;>
        cases g with
        | none => simp [hr]
        | some gg => by_cases hg : gg = 0 <;> simp [hr, hg]

/-- The stored total of the code equals the amended claim C1's formula. -/
theorem computeTotal_eq_amendedTotal (items : List LineItem) (g : Option ℚ) :
    computeTotal items g = amendedTotal items g := by
  unfold computeTotal amendedTotal
  have hf : itemContribution g = fun it =>
      it.quantity * it.unit_price *
        (1 + amendedEffectiveTaxRate it.tax_rate g / 100) := by
    funext it
    unfold itemContribution
    rw [effectiveTaxRate_eq_amended]
    ring
  rw [hf]

/-- The image of the first match is in the replaced list. -/
theorem replaceFirst_mem {p : α → Bool} {f : α → α} {l : List α} {x : α}
    (h : l.find? p = some x) : f x ∈ replaceFirst p f l := by
  induction l with
  | nil => simp [List.find?] at h
  | cons a as ih =>
      by_cases ha : p a
      · rw [List.find?_cons_of_pos _ ha] at h
        obtain rfl : a = x := by injection h
        simp [replaceFirst, ha]
      · rw [List.find?_cons_of_neg _ ha] at h
        simp only [replaceFirst, ha]
        simp only [Bool.false_eq_true, if_false, List.mem_cons]
        exact Or.inr (ih h)

/-- Inversion of a successful invoice creation. -/
theorem createInvoice_inv {db : DB} {uid : String} {req : InvoiceReq}
    {newId : String} {year : Nat} {now : Int} {inv : Invoice} {db' : DB}
    (h : createInvoice db uid req newId year now = some (inv, db')) :
    inv.total_amount = computeTotal req.items req.global_tax_rate ∧
    inv.invoice_number = generateInvoiceNumber year db.invoices.length ∧
    db'.invoices = db.invoices ++ [inv] ∧ validInvoiceReq req = true := by
  unfold createInvoice at h
  split at h
  case isTrue hv =>
    cases hc : findClient db uid req.client_id with
    | none => rw [hc] at h; exact absurd h (by simp)
    | some client =>
        rw [hc] at h
        simp only [Option.some.injEq, Prod.mk.injEq] at h
        obtain ⟨h1, h2⟩ := h
        subst h1; subst h2
        exact ⟨rfl, rfl, rfl, hv⟩
  case isFalse => exact absurd h (by simp)

/-- Inversion of a successful invoice update. -/
theorem updateInvoice_inv {db : DB} {uid invId : String} {req : InvoiceReq}
    {now : Int} {inv : Invoice} {db' : DB}
    (h : updateInvoice db uid invId req now = some (inv, db')) :
    inv.total_amount = computeTotal req.items req.global_tax_rate ∧
    inv ∈ db'.invoices := by
  unfold updateInvoice at h
  split at h
  case isTrue hv =>
    cases hfi : findInvoice db uid invId with
    | none => rw [hfi] at h; exact absurd h (by simp)
    | some old =>
        rw [hfi] at h
        cases hc : findClient db uid req.client_id with
        | none => rw [hc] at h; exact absurd h (by simp)
        | some client =>
            rw [hc] at h
            simp only [Option.some.injEq, Prod.mk.injEq] at h
            obtain ⟨h1, h2⟩ := h
            subst h1; subst h2
            refine ⟨rfl, ?_⟩
            unfold findInvoice at hfi
            exact replaceFirst_mem hfi
  case isFalse => exact absurd h (by simp)

/-- Claim C1 is refuted by the code: with one valid item whose `tax_rate` is
present and equal to `0` and a global tax rate of `10`, the stored total is
`110` (the zero item rate is falsy and falls through to the global rate),
while the claim's formula, which uses the item's rate whenever present,
gives `100`. -/
theorem C1_counterexample :
    validInvoiceReq c1req = true ∧
    (createInvoice emptyInvDb "u1" c1req "x" 2025 0).map
      (fun r => r.1.total_amount) = some 110 ∧
    claimTotal c1req.items c1req.global_tax_rate = 100 ∧
    (createInvoice emptyInvDb "u1" c1req "x" 2025 0).map
      (fun r => r.1.total_amount) ≠
      some (claimTotal c1req.items c1req.global_tax_rate) := by
  have h2 : (createInvoice emptyInvDb "u1" c1req "x" 2025 0).map
      (fun r => r.1.total_amount)
      = some (computeTotal c1req.items c1req.global_tax_rate) := rfl
  have h3 : computeTotal c1req.items c1req.global_tax_rate = 110 := by
    simp only [computeTotal, itemContribution, effectiveTaxRate, jsOr, c1req,
      List.map_cons, List.map_nil, List.sum_cons, List.sum_nil]
    norm_num [round2, round_eq]
  have h4 : claimTotal c1req.items c1req.global_tax_rate = 100 := by
    simp only [claimTotal, claimEffectiveTaxRate, c1req, Option.getD_some,
      List.map_cons, List.map_nil, List.sum_cons, List.sum_nil]
    norm_num [round2, round_eq]
  refine ⟨by decide, by rw [h2, h3], h4, ?_⟩
  rw [h2, h3, h4]
  norm_num

/-- Claim C1 (amended): for every successful invoice creation or update, the
stored `total_amount` equals the sum over the items of
`quantity * unit_price * (1 + rate / 100)` rounded to 2 decimals once at the
end, where `rate` is the item's `tax_rate` if present and nonzero, else the
request's `global_tax_rate` if present and nonzero, else `0` (a zero rate is
falsy in JavaScript and falls through); on creation the new invoice is
appended to the store, on update the updated invoice is stored. -/
theorem C1_amended_total (db : DB) (uid newId : String) (req : InvoiceReq)
    (year : Nat) (now : Int) :
    (∀ inv db', createInvoice db uid req newId year now = some (inv, db') →
      inv.total_amount = amendedTotal req.items req.global_tax_rate ∧
      db'.invoices = db.invoices ++ [inv]) ∧
    (∀ invId inv db', updateInvoice db uid invId req now = some (inv, db') →
      inv.total_amount = amendedTotal req.items req.global_tax_rate ∧
      inv ∈ db'.invoices) := by
  constructor
  · intro inv db' h
    obtain ⟨ht, _, happ, _⟩ := createInvoice_inv h
    exact ⟨ht.trans (computeTotal_eq_amendedTotal _ _), happ⟩
  · intro invId inv db' h
    obtain ⟨ht, hmem⟩ := updateInvoice_inv h
    exact ⟨ht.trans (computeTotal_eq_amendedTotal _ _), hmem⟩

/-- Witness for `C1_amended_total` at a concrete creation. -/
theorem C1_amended_total_witness :
    c1winv.total_amount = amendedTotal c1req.items c1req.global_tax_rate ∧
    c1wdb.invoices = emptyInvDb.invoices ++ [c1winv] :=
  (C1_amended_total emptyInvDb "u1" "x" c1req 2025 0).1 c1winv c1wdb rfl

/-- Appending one payment for the invoice adds its amount to the total paid. -/
theorem totalPaidFor_append (db : DB) (invId : String) (P : Payment)
    (hP : P.invoiceId = invId) :
    totalPaidFor { db with payments := db.payments ++ [P] } invId =
      totalPaidFor db invId + P.amount := by
  unfold totalPaidFor paymentsFor
  simp [List.filter_append, hP]

/-- `find?` after `replaceFirst` with the same predicate, when `f` preserves
the predicate. -/
theorem find?_replaceFirst {p : α → Bool} {f : α → α} (l : List α)
    (hpf : ∀ x, p x = true → p (f x) = true) :
    (replaceFirst p f l).find? p = (l.find? p).map f := by
  induction l with
  | nil => rfl
  | cons a as ih =>
      by_cases ha : p a
      · simp only [replaceFirst, ha, if_true]
        rw [List.find?_cons_of_pos _ (hpf a ha), List.find?_cons_of_pos _ ha]
        rfl
      · simp only [replaceFirst, ha, Bool.false_eq_true, if_false]
        rw [List.find?_cons_of_neg _ ha, List.find?_cons_of_neg _ ha]
        exact ih

/-- The result of a successful payment recording, explicitly: the payment is
appended and the first matching invoice's status and updated timestamp are
overwritten. -/
theorem recordPayment_eq (db : DB) (uid invId : String) (req : PaymentReq)
    (pid : String) (now : Int) (inv : Invoice)
    (hfind : findInvoice db uid invId = some inv)
    (hok : validPaymentReq req = true) :
    recordPayment db uid invId req pid now =
      some (paymentOf req uid invId pid now,
        dbAfterPayment db uid invId req pid now inv) := by
  unfold recordPayment
  split
  case isFalse hv => exact absurd hok hv
  case isTrue hv =>
    rw [hfind]
    unfold dbAfterPayment derivedStatus paymentOf
    dsimp only
    rw [totalPaidFor_append db invId _ rfl]

/-- `replaceFirst` relates the old and new lists pointwise: a reflexive
relation that also relates a matching element to its image. -/
theorem replaceFirst_forall₂ {R : α → α → Prop} {p : α → Bool} {f : α → α}
    (hrefl : ∀ x, R x x) (hf : ∀ x, p x = true → R x (f x)) :
    ∀ l, List.Forall₂ R l (replaceFirst p f l)
  | [] => List.Forall₂.nil
  | a :: as => by
      by_cases ha : p a
      · simp only [replaceFirst, ha, if_true]
        exact List.Forall₂.cons (hf a ha)
          (List.forall₂_same.mpr (fun x _ => hrefl x))
      · simp only [replaceFirst, ha, Bool.false_eq_true, if_false]
        exact List.Forall₂.cons (hrefl a) (replaceFirst_forall₂ hrefl hf as)

/-- Claim C2: recording a payment with positive amount against an owned
invoice appends exactly one payment record and then sets the invoice status
by precedence on the new sum of all payments for the invoice — `paid` when
the sum reaches `total_amount`, else `partially_paid` when the sum is
positive, else unchanged — regardless of the invoice's prior status (a
cancelled invoice is flipped like any other); a non-positive amount is
rejected. -/
theorem C2_payment_recording (db : DB) (uid invId : String) (req : PaymentReq)
    (pid : String) (now : Int) (inv : Invoice)
    (hfind : findInvoice db uid invId = some inv)
    (hmeth : req.payment_method ≠ "") :
    (req.amount ≤ 0 → recordPayment db uid invId req pid now = none) ∧
    (0 < req.amount →
      ∃ p db', recordPayment db uid invId req pid now = some (p, db') ∧
        p = paymentOf req uid invId pid now ∧
        db'.payments = db.payments ++ [p] ∧
        findInvoice db' uid invId = some
          { inv with
            status :=
              if inv.total_amount ≤ totalPaidFor db invId + req.amount then
                Status.paid
              else if 0 < totalPaidFor db invId + req.amount then
                Status.partiallyPaid
              else inv.status
            updatedAt := now }) := by
  constructor
  · intro hle
    unfold recordPayment
    split
    case isTrue hv =>
        exfalso
        simp only [validPaymentReq, Bool.and_eq_true, decide_eq_true_eq] at hv
        exact absurd hv.1 (not_lt.mpr hle)
    case isFalse => rfl
  · intro hamt
    have hok : validPaymentReq req = true := by
      simp only [validPaymentReq, Bool.and_eq_true, decide_eq_true_eq]
      exact ⟨hamt, hmeth⟩
    refine ⟨paymentOf req uid invId pid now,
      dbAfterPayment db uid invId req pid now inv,
      recordPayment_eq db uid invId req pid now inv hfind hok, rfl, rfl, ?_⟩
    have hrw := @find?_replaceFirst Invoice
      (fun i => decide (i.id = invId ∧ i.userId = uid))
      (fun i => { i with status := derivedStatus db invId req inv
                         updatedAt := now })
      db.invoices (fun x hx => hx)
    unfold findInvoice dbAfterPayment
    rw [hrw]
    unfold findInvoice at hfind
    rw [hfind]
    rfl

/-- Witness for `C2_payment_recording`: a payment of 40 against the pending
invoice of total 100 in `fixDb`. -/
theorem C2_payment_recording_witness :
    (fixPayReq.amount ≤ 0 →
      recordPayment fixDb "u1" "i1" fixPayReq "p9" 50 = none) ∧
    (0 < fixPayReq.amount →
      ∃ p db', recordPayment fixDb "u1" "i1" fixPayReq "p9" 50 = some (p, db') ∧
        p = paymentOf fixPayReq "u1" "i1" "p9" 50 ∧
        db'.payments = fixDb.payments ++ [p] ∧
        findInvoice db' "u1" "i1" = some
          { fixInvoice with
            status :=
              if fixInvoice.total_amount ≤
                  totalPaidFor fixDb "i1" + fixPayReq.amount then
                Status.paid
              else if 0 < totalPaidFor fixDb "i1" + fixPayReq.amount then
                Status.partiallyPaid
              else fixInvoice.status
            updatedAt := 50 }) :=
  C2_payment_recording fixDb "u1" "i1" fixPayReq "p9" 50 fixInvoice rfl
    (by decide)

/-- Claim C9: when every payment already recorded for the invoice is positive
and the new payment is positive, a successful recording always leaves the
invoice `paid` or `partially_paid`; the "status unchanged" branch is
unreachable. -/
theorem C9_status_after_payment (db : DB) (uid invId : String)
    (req : PaymentReq) (pid : String) (now : Int) (inv : Invoice)
    (hfind : findInvoice db uid invId = some inv)
    (hamt : 0 < req.amount) (hmeth : req.payment_method ≠ "")
    (hprev : ∀ q ∈ db.payments, q.invoiceId = invId → 0 < q.amount) :
    ∃ p db' inv', recordPayment db uid invId req pid now = some (p, db') ∧
      findInvoice db' uid invId = some inv' ∧
      (inv'.status = Status.paid ∨ inv'.status = Status.partiallyPaid) := by
  have hok : validPaymentReq req = true := by
    simp only [validPaymentReq, Bool.and_eq_true, decide_eq_true_eq]
    exact ⟨hamt, hmeth⟩
  refine ⟨paymentOf req uid invId pid now,
    dbAfterPayment db uid invId req pid now inv,
    { inv with status := derivedStatus db invId req inv, updatedAt := now },
    recordPayment_eq db uid invId req pid now inv hfind hok, ?_, ?_⟩
  · have hrw := @find?_replaceFirst Invoice
      (fun i => decide (i.id = invId ∧ i.userId = uid))
      (fun i => { i with status := derivedStatus db invId req inv
                         updatedAt := now })
      db.invoices (fun x hx => hx)
    unfold findInvoice dbAfterPayment
    rw [hrw]
    unfold findInvoice at hfind
    rw [hfind]
    rfl
  · have hnn : 0 ≤ totalPaidFor db invId := by
      refine List.sum_nonneg ?_
      intro x hx
      simp only [List.mem_map] at hx
      obtain ⟨q, hq, rfl⟩ := hx
      unfold paymentsFor at hq
      rw [List.mem_filter, decide_eq_true_eq] at hq
      exact le_of_lt (hprev q hq.1 hq.2)
    have hpos : 0 < totalPaidFor db invId + req.amount := by linarith
    unfold derivedStatus
    by_cases hp : inv.total_amount ≤ totalPaidFor db invId + req.amount
    · simp [hp]
    · simp [hp, hpos]

/-- Witness for `C9_status_after_payment` in `fixDb` (no prior payments). -/
theorem C9_status_after_payment_witness :
    ∃ p db' inv',
      recordPayment fixDb "u1" "i1" fixPayReq "p9" 50 = some (p, db') ∧
      findInvoice db' "u1" "i1" = some inv' ∧
      (inv'.status = Status.paid ∨ inv'.status = Status.partiallyPaid) :=
  C9_status_after_payment fixDb "u1" "i1" fixPayReq "p9" 50 fixInvoice rfl
    (by decide) (by decide) (by decide)

/-- Claim C10: a successful payment recording changes nothing in the store
except appending the one payment and rewriting the target invoice's `status`
and `updatedAt`; users, settings, clients and every other invoice are
untouched. -/
theorem C10_payment_frame (db : DB) (uid invId : String) (req : PaymentReq)
    (pid : String) (now : Int) (p : Payment) (db' : DB)
    (h : recordPayment db uid invId req pid now = some (p, db')) :
    db'.users = db.users ∧ db'.settings = db.settings ∧
    db'.clients = db.clients ∧ db'.payments = db.payments ++ [p] ∧
    List.Forall₂ (invoiceFrame uid invId) db.invoices db'.invoices := by
  unfold recordPayment at h
  split at h
  case isFalse => exact absurd h (by simp)
  case isTrue hv =>
    cases hfi : findInvoice db uid invId with
    | none => rw [hfi] at h; exact absurd h (by simp)
    | some inv =>
        rw [hfi] at h
        simp only [Option.some.injEq, Prod.mk.injEq] at h
        obtain ⟨h1, h2⟩ := h
        subst h1; subst h2
        refine ⟨rfl, rfl, rfl, rfl, ?_⟩
        refine replaceFirst_forall₂ ?_ ?_ db.invoices
        · intro x
          exact ⟨rfl, rfl, rfl, rfl, rfl, rfl, rfl, rfl, rfl, rfl, rfl, rfl,
            rfl, fun _ => rfl⟩
        · intro x hx
          refine ⟨rfl, rfl, rfl, rfl, rfl, rfl, rfl, rfl, rfl, rfl, rfl, rfl,
            rfl, fun hnot => absurd (of_decide_eq_true hx) hnot⟩

/-- Witness for `C10_payment_frame` at the concrete recording in `fixDb`. -/
theorem C10_payment_frame_witness :
    wDb2.users = fixDb.users ∧ wDb2.settings = fixDb.settings ∧
    wDb2.clients = fixDb.clients ∧ wDb2.payments = fixDb.payments ++ [wPay] ∧
    List.Forall₂ (invoiceFrame "u1" "i1") fixDb.invoices wDb2.invoices :=
  C10_payment_frame fixDb "u1" "i1" fixPayReq "p9" 50 wPay wDb2 rfl

/-- Claim C3: the computed invoice total is invariant under permutation of
the (valid, nonempty) line-item sequence, the fallback tax rate being
fixed. -/
theorem C3_total_perm_invariant (items1 items2 : List LineItem) (g : Option ℚ)
    (hperm : List.Perm items1 items2)
    (hvalid : items1.all validLineItem = true) (hne : items1 ≠ []) :
    computeTotal items1 g = computeTotal items2 g := by
  unfold computeTotal
  rw [(hperm.map (itemContribution g)).sum_eq]

/-- Witness for `C3_total_perm_invariant` on a concrete two-item swap. -/
theorem C3_total_perm_invariant_witness :
    computeTotal
      [{ description := "a", quantity := 2, unit_price := 100, tax_rate := some 10 },
       { description := "b", quantity := 1, unit_price := 50, tax_rate := none }]
      (some 5) =
    computeTotal
      [{ description := "b", quantity := 1, unit_price := 50, tax_rate := none },
       { description := "a", quantity := 2, unit_price := 100, tax_rate := some 10 }]
      (some 5) :=
  C3_total_perm_invariant _ _ (some 5) (by decide) (by decide) (by decide)

/-- Claim C5: in every store state, the summary report's `total_overdue`
never exceeds `total_outstanding` — the overdue sum accumulates a subset of
the outstanding contributions, and rounding is monotone. -/
theorem C5_overdue_le_outstanding (db : DB) (uid : String) (now : Int) :
    (summaryReport db uid now).total_overdue ≤
      (summaryReport db uid now).total_outstanding := by
  unfold summaryReport
  dsimp only
  apply round2_mono
  apply List.sum_le_sum
  intro inv _
  unfold overdueContribution outstandingContribution
  split_ifs with h1 h2
  · exact le_refl _
  · exact h1.1.le
  · exact le_refl _

/-- Sum of the amounts of the payments in the window equals the sum of the
per-payment conditional contributions the code accumulates. -/
theorem sum_filter_window (now : Int) (l : List Payment) :
    ((l.filter (fun p => decide (now - 30 ≤ p.payment_date))).map
        Payment.amount).sum
      = (l.map (fun p => if now - 30 ≤ p.payment_date then p.amount else 0)).sum := by
  induction l with
  | nil => rfl
  | cons x xs ih =>
      by_cases hx : now - 30 ≤ x.payment_date
      · rw [List.filter_cons, if_pos (by simpa using hx)]
        simp only [List.map_cons, List.sum_cons, if_pos hx, ih]
      · rw [List.filter_cons, if_neg (by simpa using hx)]
        simp only [List.map_cons, List.sum_cons, if_neg hx, zero_add, ih]

/-- Claim C6 is refuted by the code: with one payment of 50 dated 5 days
after `now`, the report counts it (`payment_date >= now - 30` is the only
check), while the claim's window `[now - 30, now]` excludes it. -/
theorem C6_counterexample :
    (summaryReport c6db "u1" 100).paid_last_30_days = 50 ∧
    claimPaid30 c6db "u1" 100 = 0 ∧
    (summaryReport c6db "u1" 100).paid_last_30_days ≠ claimPaid30 c6db "u1" 100 := by
  have h1 : (summaryReport c6db "u1" 100).paid_last_30_days = 50 := by
    norm_num [summaryReport, userInvoices, paid30Contribution, paymentsFor,
      c6db, fixInvoice, List.filter_cons, round2, round_eq]
  have h2 : claimPaid30 c6db "u1" 100 = 0 := by
    norm_num [claimPaid30, userInvoices, paymentsFor, c6db, fixInvoice,
      List.filter_cons, round2, round_eq]
  refine ⟨h1, h2, ?_⟩
  rw [h1, h2]
  norm_num

/-- Claim C6 (amended): `paid_last_30_days` sums, over the user's invoices,
the amounts of the payments whose date satisfies the inclusive lower bound
`payment_date >= now - 30`; there is no upper bound, so future-dated
payments are included. -/
theorem C6_amended_window (db : DB) (uid : String) (now : Int) :
    (summaryReport db uid now).paid_last_30_days = amendedPaid30 db uid now := by
  unfold summaryReport amendedPaid30
  dsimp only
  have h : (fun inv => (((paymentsFor db inv.id).filter
      (fun p => decide (now - 30 ≤ p.payment_date))).map Payment.amount).sum)
      = paid30Contribution db now := by
    funext inv
    exact sum_filter_window now _
  rw [h]

/-- Claim C7: deleting an owned invoice removes it together with every
payment referencing it, leaves every other payment in place, and a
subsequent fetch of the invoice's payments is a not-found. -/
theorem C7_delete_cascade (db : DB) (uid invId : String) (inv : Invoice)
    (hmem : inv ∈ db.invoices) (hid : inv.id = invId) (huid : inv.userId = uid) :
    ∃ db', deleteInvoice db uid invId = some db' ∧
      db'.payments = db.payments.filter (fun p => decide (p.invoiceId ≠ invId)) ∧
      (∀ p ∈ db'.payments, p.invoiceId ≠ invId) ∧
      (∀ p ∈ db.payments, p.invoiceId ≠ invId → p ∈ db'.payments) ∧
      getInvoicePayments db' uid invId = none := by
  have hlen : (db.invoices.filter
      (fun i => decide (¬(i.id = invId ∧ i.userId = uid)))).length ≠
      db.invoices.length := by
    intro heq
    have hall := List.filter_length_eq_length.mp heq inv hmem
    rw [decide_eq_true_eq] at hall
    exact hall ⟨hid, huid⟩
  refine ⟨{ db with
      invoices := db.invoices.filter
        (fun i => decide (¬(i.id = invId ∧ i.userId = uid)))
      payments := db.payments.filter (fun p => decide (p.invoiceId ≠ invId)) },
    ?_, rfl, ?_, ?_, ?_⟩
  · unfold deleteInvoice
    exact if_neg hlen
  · intro p hp
    rw [List.mem_filter, decide_eq_true_eq] at hp
    exact hp.2
  · intro p hp hne
    rw [List.mem_filter]
    exact ⟨hp, decide_eq_true hne⟩
  · unfold getInvoicePayments findInvoice
    have hnone : (db.invoices.filter
        (fun i => decide (¬(i.id = invId ∧ i.userId = uid)))).find?
        (fun i => decide (i.id = invId ∧ i.userId = uid)) = none := by
      rw [List.find?_eq_none]
      intro x hx
      rw [List.mem_filter, decide_eq_true_eq] at hx
      simp only [decide_eq_true_eq]
      exact hx.2
    rw [hnone]

/-- Witness for `C7_delete_cascade`: deleting invoice `i1` from `c6db`, which
holds one payment referencing it. -/
theorem C7_delete_cascade_witness :
    ∃ db', deleteInvoice c6db "u1" "i1" = some db' ∧
      db'.payments = c6db.payments.filter (fun p => decide (p.invoiceId ≠ "i1")) ∧
      (∀ p ∈ db'.payments, p.invoiceId ≠ "i1") ∧
      (∀ p ∈ c6db.payments, p.invoiceId ≠ "i1" → p ∈ db'.payments) ∧
      getInvoicePayments db' "u1" "i1" = none :=
  C7_delete_cascade c6db "u1" "i1" fixInvoice (by decide) rfl rfl

/-- Every digit produced by `decDigitsAux` is below 10. -/
theorem decDigitsAux_lt (fuel : Nat) :
    ∀ n, ∀ d ∈ decDigitsAux fuel n, d < 10 := by
  induction fuel with
  | zero => intro n d hd; simp [decDigitsAux] at hd
  | succ f ih =>
      intro n d hd
      cases n with
      | zero => simp [decDigitsAux] at hd
      | succ m =>
          rw [decDigitsAux] at hd
          rcases List.mem_cons.mp hd with h | h
          · subst h; exact Nat.mod_lt _ (by norm_num)
          · exact ih _ d h

/-- Folding the reversed digit list most-significant-first reconstructs the
number. -/
theorem decDigitsAux_foldl (fuel : Nat) :
    ∀ n acc, n ≤ fuel →
      ((decDigitsAux fuel n).reverse).foldl (fun a d => a * 10 + d) acc =
        acc * 10 ^ (decDigitsAux fuel n).length + n := by
  induction fuel with
  | zero =>
      intro n acc h
      obtain rfl : n = 0 := Nat.le_zero.mp h
      simp [decDigitsAux]
  | succ f ih =>
      intro n acc h
      cases n with
      | zero => simp [decDigitsAux]
      | succ m =>
          have hm : (m + 1) / 10 ≤ f := by
            have hlt : (m + 1) / 10 < m + 1 :=
              Nat.div_lt_self (Nat.succ_pos m) (by norm_num)
            omega
          rw [decDigitsAux]
          simp only [List.reverse_cons, List.foldl_append, List.length_cons]
          rw [ih ((m + 1) / 10) acc hm]
          simp only [List.foldl_cons, List.foldl_nil]
          have hqr : 10 * ((m + 1) / 10) + (m + 1) % 10 = m + 1 :=
            Nat.div_add_mod (m + 1) 10
          calc (acc * 10 ^ (decDigitsAux f ((m + 1) / 10)).length +
                (m + 1) / 10) * 10 + (m + 1) % 10
              = acc * (10 ^ (decDigitsAux f ((m + 1) / 10)).length * 10) +
                (10 * ((m + 1) / 10) + (m + 1) % 10) := by ring
            _ = acc * 10 ^ ((decDigitsAux f ((m + 1) / 10)).length + 1) +
                (m + 1) := by rw [hqr, pow_succ]

/-- `digitChar` of a digit has the expected character code. -/
theorem digitChar_toNat (d : Nat) (h : d < 10) :
    (Nat.digitChar d).toNat = 48 + d := by
  interval_cases d <;> rfl

/-- Rendering digits through `digitChar` and reading them back with
`decValue`'s folding step is the identity on the digit values. -/
theorem foldl_map_digitChar (ds : List Nat) (hds : ∀ d ∈ ds, d < 10) :
    ∀ acc, (ds.map Nat.digitChar).foldl
        (fun a c => a * 10 + (c.toNat - 48)) acc =
      ds.foldl (fun a d => a * 10 + d) acc := by
  induction ds with
  | nil => intro acc; rfl
  | cons d ds ih =>
      intro acc
      simp only [List.map_cons, List.foldl_cons]
      rw [digitChar_toNat d (hds d (List.mem_cons_self d ds))]
      have h48 : 48 + d - 48 = d := by omega
      rw [h48]
      exact ih (fun x hx => hds x (List.mem_cons_of_mem _ hx)) _

/-- Reading the decimal rendering back gives the number. -/
theorem decValue_natToDecimal (n : Nat) :
    decValue (natToDecimal n).data = n := by
  unfold natToDecimal
  by_cases h0 : n = 0
  · subst h0; rfl
  · rw [if_neg h0]
    unfold decValue
    show ((decDigits n).reverse.map Nat.digitChar).foldl
        (fun a c => a * 10 + (c.toNat - 48)) 0 = n
    have hds : ∀ d ∈ (decDigits n).reverse, d < 10 := by
      intro d hd
      exact decDigitsAux_lt n n d (List.mem_reverse.mp hd)
    rw [foldl_map_digitChar _ hds 0]
    unfold decDigits
    rw [decDigitsAux_foldl n n 0 (le_refl n)]
    simp

/-- `decValue` ignores leading zero characters. -/
theorem decValue_replicate_zero (k : Nat) (l : List Char) :
    decValue (List.replicate k '0' ++ l) = decValue l := by
  induction k with
  | zero => rfl
  | succ j ih =>
      show decValue ('0' :: (List.replicate j '0' ++ l)) = decValue l
      unfold decValue at ih ⊢
      simp only [List.foldl_cons]
      exact ih

/-- Zero-padding does not change the decimal value. -/
theorem decValue_padStart5 (s : String) :
    decValue (padStart5 s).data = decValue s.data := by
  unfold padStart5
  split
  · rfl
  · exact decValue_replicate_zero _ _

/-- The padded decimal rendering is injective. -/
theorem pad_natToDecimal_inj {a b : Nat}
    (h : padStart5 (natToDecimal a) = padStart5 (natToDecimal b)) : a = b := by
  have h2 := congrArg (fun s => decValue s.data) h
  simpa [decValue_padStart5, decValue_natToDecimal] using h2

/-- The invoice number generator is injective in the count, the year being
fixed. -/
theorem generateInvoiceNumber_inj (year : Nat) :
    Function.Injective (generateInvoiceNumber year) := by
  intro a b h
  unfold generateInvoiceNumber at h
  have hd := congrArg String.data h
  simp only [String.data_append, List.append_assoc] at hd
  have hd2 := List.append_cancel_left hd
  have hd3 := List.append_cancel_left hd2
  have hd4 := List.append_cancel_left hd3
  have h5 : decValue (padStart5 (natToDecimal (a + 1))).data =
      decValue (padStart5 (natToDecimal (b + 1))).data := by rw [hd4]
  rw [decValue_padStart5, decValue_padStart5, decValue_natToDecimal,
    decValue_natToDecimal] at h5
  omega

/-- Claim C4 is refuted by the code: numbers are derived from the current
invoice count, so create, create, delete-the-first, create yields two
distinct stored invoices (`b` and `c`) with the same number
`INV-2025-00002`. -/
theorem C4_counterexample :
    c4db4.invoices.map Invoice.id = ["b", "c"] ∧
    c4db4.invoices.map Invoice.invoice_number =
      ["INV-2025-00002", "INV-2025-00002"] := by
  constructor
  · decide
  · decide

/-- Claim C4 (amended): every generated invoice number has the form
`INV-<year>-<zero-padded count + 1>`, and along deletion-free histories the
numbers stay pairwise distinct: if the store's numbers are those generated
from counts `0..length-1`, a successful creation preserves that shape and
the resulting number list has no duplicate.  (Deleting an invoice breaks the
count-derived invariant, as the counterexample shows.) -/
theorem C4_amended_unique_numbers (db : DB) (uid : String) (req : InvoiceReq)
    (newId : String) (year : Nat) (now : Int) (inv : Invoice) (db' : DB)
    (hnums : db.invoices.map Invoice.invoice_number =
      (List.range db.invoices.length).map (generateInvoiceNumber year))
    (h : createInvoice db uid req newId year now = some (inv, db')) :
    inv.invoice_number =
      "INV-" ++ natToDecimal year ++ "-" ++
        padStart5 (natToDecimal (db.invoices.length + 1)) ∧
    db'.invoices.map Invoice.invoice_number =
      (List.range db'.invoices.length).map (generateInvoiceNumber year) ∧
    (db'.invoices.map Invoice.invoice_number).Nodup := by
  obtain ⟨_, hnum, happ, _⟩ := createInvoice_inv h
  have hlen : db'.invoices.length = db.invoices.length + 1 := by
    rw [happ]; simp
  have hmap : db'.invoices.map Invoice.invoice_number =
      (List.range db'.invoices.length).map (generateInvoiceNumber year) := by
    simp [happ, hnums, hnum, List.range_succ]
  refine ⟨hnum, hmap, ?_⟩
  rw [hmap]
  exact ((List.nodup_range _).map (generateInvoiceNumber_inj year))

/-- Witness for `C4_amended_unique_numbers`: the first creation in a store
with no invoices. -/
theorem C4_amended_unique_numbers_witness :
    c4winv.invoice_number =
      "INV-" ++ natToDecimal 2025 ++ "-" ++
        padStart5 (natToDecimal (emptyInvDb.invoices.length + 1)) ∧
    c4db1.invoices.map Invoice.invoice_number =
      (List.range c4db1.invoices.length).map (generateInvoiceNumber 2025) ∧
    (c4db1.invoices.map Invoice.invoice_number).Nodup :=
  C4_amended_unique_numbers emptyInvDb "u1" plainReq "a" 2025 0 c4winv c4db1
    rfl rfl

/-- Claim C8: the revenue-by-client report emits exactly the per-client rows
with positive revenue of the target user's clients (each row built by
`clientRevenueEntry` over that client's paid or partially paid invoices),
sorted descending by `total_revenue`; and a caller without the `admin` role
always targets their own data. -/
theorem C8_revenue_report (db : DB) (targetUid callerId : String)
    (roles : List String) (q : Option String) (h : "admin" ∉ roles) :
    targetUser callerId roles q = callerId ∧
    List.Pairwise (fun a b => b.total_revenue ≤ a.total_revenue)
      (revenueByClient db targetUid) ∧
    (∀ e ∈ revenueByClient db targetUid, 0 < e.total_revenue) ∧
    List.Perm (revenueByClient db targetUid)
      (((db.clients.filter (fun c => decide (c.userId = targetUid))).map
          (clientRevenueEntry db targetUid)).filter
        (fun e => decide (0 < e.total_revenue))) := by
  refine ⟨?_, ?_, ?_, ?_⟩
  · unfold targetUser
    rw [if_neg h]
  · unfold revenueByClient
    have hs := @List.sorted_mergeSort RevenueEntry
      (fun a b => decide (b.total_revenue ≤ a.total_revenue))
      (fun a b c h1 h2 => by
        simp only [decide_eq_true_eq] at h1 h2 ⊢
        exact le_trans h2 h1)
      (fun a b => by
        simp only [Bool.or_eq_true, decide_eq_true_eq]
        exact le_total b.total_revenue a.total_revenue)
      (((db.clients.filter (fun c => decide (c.userId = targetUid))).map
          (clientRevenueEntry db targetUid)).filter
        (fun e => decide (0 < e.total_revenue)))
    exact hs.imp (fun hab => of_decide_eq_true hab)
  · intro e he
    unfold revenueByClient at he
    have hmem := (List.mergeSort_perm _ _).subset he
    rw [List.mem_filter, decide_eq_true_eq] at hmem
    exact hmem.2
  · unfold revenueByClient
    exact List.mergeSort_perm _ _

/-- Witness for `C8_revenue_report` with a non-admin caller and the store
`emptyInvDb`. -/
theorem C8_revenue_report_witness :
    targetUser "u1" ["user"] none = "u1" ∧
    List.Pairwise (fun a b => b.total_revenue ≤ a.total_revenue)
      (revenueByClient emptyInvDb "u1") ∧
    (∀ e ∈ revenueByClient emptyInvDb "u1", 0 < e.total_revenue) ∧
    List.Perm (revenueByClient emptyInvDb "u1")
      (((emptyInvDb.clients.filter (fun c => decide (c.userId = "u1"))).map
          (clientRevenueEntry emptyInvDb "u1")).filter
        (fun e => decide (0 < e.total_revenue))) :=
  C8_revenue_report emptyInvDb "u1" "u1" ["user"] none (by decide)

end InvoicyPro
